import Mathlib

/-!
# Verification of the heuristic saliency-overlay generator

Shallow embedding of `src/utils/gradcam.py` from the Bone_cancer_detection
repository.

Modelling conventions:

* An image is a height, a width, and a total pixel function (`Img`).  Pixels of
  a 3-channel 8-bit image are integer triples in channel-storage order
  (OpenCV loads BGR, so component `.1` is the blue channel of a loaded image).
* All intermediate floating-point arrays (`np.float64` / `np.float32`) are
  modelled over `ℚ`.  The rounding that OpenCV performs when it keeps an
  8-bit array (the Gaussian blur of the uint8 grayscale) is not modelled; none
  of the stated properties depends on it.
* The transcendental ingredients of the pipeline — `np.sqrt`, the entries of
  the two Gaussian kernels produced by `cv2.GaussianBlur` for apertures 21 and
  31, and the `matplotlib` jet colormap — are irrational-valued, so they are
  carried as parameters of the pipeline (`NumEnv`).  Theorems that need a fact
  about them (for instance that a Gaussian kernel sums to 1, which
  `cv2.getGaussianKernel` guarantees by normalization, or that `np.sqrt 0 = 0`)
  take that fact as an explicit hypothesis.
* Exact integer/rational parts of the pipeline are embedded exactly: the
  fixed-point BGR→gray weights of `cv2.cvtColor`, the Sobel 3×3 kernels, the
  normalized box filter of `cv2.blur`, the `BORDER_REFLECT_101` index
  reflection, `saturate_cast<uchar>` with round-half-to-even (`cvRound`), and
  the truncation of `.astype(np.uint8)` (a floor on the non-negative values
  produced here).
* The file-system boundary of the function (`cv2.imread` returning `None` on a
  decode failure, `cv2.imwrite` reporting success through its boolean return
  value and the written file) is modelled by `FsEnv` / `RunResult`.
-/

namespace BoneCancer

/-- A raster image: height, width, and a total pixel function.  Only indices
`y < h`, `x < w` are meaningful; operations below never read outside that
range thanks to border reflection. -/
structure Img (α : Type) where
  h : ℕ
  w : ℕ
  pix : ℕ → ℕ → α

/-- A 3-channel integer pixel, in storage order.  For an image loaded by
`cv2.imread` the order is B, G, R. -/
abbrev Pix3 := ℤ × ℤ × ℤ

/-- The numeric environment of the pipeline: the pointwise square root used by
`np.sqrt`, the entries of the Gaussian kernels that `cv2.GaussianBlur` builds
for apertures 21 and 31 (sigma derived from the aperture), and the jet
colormap of `matplotlib.cm` as a map from a saliency value to an RGB triple
of floats. -/
structure NumEnv where
  sqrtQ : ℚ → ℚ
  g21 : ℤ → ℤ → ℚ
  g31 : ℤ → ℤ → ℚ
  jet : ℚ → ℚ × ℚ × ℚ

/-- OpenCV `BORDER_REFLECT_101` index reflection (`gfedcb|abcdefgh|gfedcba`),
in closed form: indices are taken modulo the period `2*(n-1)` and folded. -/
def reflect101 (n : ℕ) (i : ℤ) : ℕ :=
  if n ≤ 1 then 0
  else
    let p : ℤ := 2 * ((n : ℤ) - 1)
    let j : ℤ := i % p
    (if j < (n : ℤ) then j else p - j).toNat

/-- 2-D correlation with an anchored kernel of radius `r` (aperture `2*r+1`),
with `BORDER_REFLECT_101` handling at the edges.  This is what
`cv2.GaussianBlur`, `cv2.Sobel` and `cv2.blur` compute (OpenCV filters
correlate, they do not flip the kernel). -/
def conv2d (r : ℕ) (k : ℤ → ℤ → ℚ) (img : Img ℚ) : Img ℚ :=
  ⟨img.h, img.w, fun y x =>
    ∑ a ∈ Finset.range (2 * r + 1), ∑ b ∈ Finset.range (2 * r + 1),
      k ((a : ℤ) - (r : ℤ)) ((b : ℤ) - (r : ℤ)) *
        img.pix (reflect101 img.h ((y : ℤ) + ((a : ℤ) - (r : ℤ))))
                (reflect101 img.w ((x : ℤ) + ((b : ℤ) - (r : ℤ))))⟩

/-- The sum of all entries of a radius-`r` kernel. -/
def ksum (r : ℕ) (k : ℤ → ℤ → ℚ) : ℚ :=
  ∑ a ∈ Finset.range (2 * r + 1), ∑ b ∈ Finset.range (2 * r + 1),
    k ((a : ℤ) - (r : ℤ)) ((b : ℤ) - (r : ℤ))

/-- `cv2.cvtColor(..., COLOR_BGR2GRAY)` on one BGR pixel, in OpenCV's exact
fixed-point arithmetic: `(1868*B + 9617*G + 4899*R + 8192) >> 14`. -/
def grayPix (p : Pix3) : ℚ :=
  (((1868 * p.1 + 9617 * p.2.1 + 4899 * p.2.2 + 8192) / 16384 : ℤ) : ℚ)

/-- `gray = cv2.cvtColor(img, cv2.COLOR_BGR2GRAY)`. -/
def grayImg (img : Img Pix3) : Img ℚ :=
  ⟨img.h, img.w, fun y x => grayPix (img.pix y x)⟩

/-- Channel swap, used for both `COLOR_BGR2RGB` and `COLOR_RGB2BGR`. -/
def swapRB (img : Img Pix3) : Img Pix3 :=
  ⟨img.h, img.w, fun y x =>
    ((img.pix y x).2.2, (img.pix y x).2.1, (img.pix y x).1)⟩

/-- `blurred = cv2.GaussianBlur(gray, (21, 21), 0)`. -/
def blurredImg (o : NumEnv) (img : Img Pix3) : Img ℚ :=
  conv2d 10 o.g21 (grayImg img)

/-- The 3×3 Sobel x-derivative kernel used by
`cv2.Sobel(blurred, cv2.CV_64F, 1, 0, ksize=3)`:
rows `[-1,0,1]`, `[-2,0,2]`, `[-1,0,1]`. -/
def sobelXK : ℤ → ℤ → ℚ := fun dy dx =>
  (if dx = -1 then -1 else if dx = 1 then 1 else 0) * (if dy = 0 then 2 else 1)

/-- The 3×3 Sobel y-derivative kernel (transpose of `sobelXK`). -/
def sobelYK : ℤ → ℤ → ℚ := fun dy dx => sobelXK dx dy

/-- `sobelx = cv2.Sobel(blurred, cv2.CV_64F, 1, 0, ksize=3)`. -/
def sobelxImg (o : NumEnv) (img : Img Pix3) : Img ℚ :=
  conv2d 1 sobelXK (blurredImg o img)

/-- `sobely = cv2.Sobel(blurred, cv2.CV_64F, 0, 1, ksize=3)`. -/
def sobelyImg (o : NumEnv) (img : Img Pix3) : Img ℚ :=
  conv2d 1 sobelYK (blurredImg o img)

/-- `magnitude = np.sqrt(sobelx**2 + sobely**2)` (before normalization). -/
def magnitudeRaw (o : NumEnv) (img : Img Pix3) : Img ℚ :=
  ⟨img.h, img.w, fun y x =>
    o.sqrtQ ((sobelxImg o img).pix y x ^ 2 + (sobelyImg o img).pix y x ^ 2)⟩

/-- `arr.max()` of NumPy on a (nonempty) 2-D array: a fold of `max` over every
in-range entry, seeded with the first entry. -/
def imgMax (f : Img ℚ) : ℚ :=
  (List.range f.h).foldl
    (fun a y => (List.range f.w).foldl (fun b x => max b (f.pix y x)) a)
    (f.pix 0 0)

/-- The guarded normalization pattern of the source:
`if field.max() > 0: field = field / field.max()`. -/
def normalizeField (f : Img ℚ) : Img ℚ :=
  if 0 < imgMax f then ⟨f.h, f.w, fun y x => f.pix y x / imgMax f⟩ else f

/-- The gradient-magnitude field after its guarded normalization. -/
def magnitudeNorm (o : NumEnv) (img : Img Pix3) : Img ℚ :=
  normalizeField (magnitudeRaw o img)

/-- The normalized box kernel of `cv2.blur(..., (31, 31))`. -/
def boxK : ℤ → ℤ → ℚ := fun _ _ => 1 / 961

/-- `local_mean = cv2.blur(gray.astype(np.float32), (31, 31))`. -/
def localMean (img : Img Pix3) : Img ℚ :=
  conv2d 15 boxK (grayImg img)

/-- `(gray.astype(np.float32))**2`. -/
def graySq (img : Img Pix3) : Img ℚ :=
  ⟨img.h, img.w, fun y x => (grayImg img).pix y x ^ 2⟩

/-- `local_sq_mean = cv2.blur((gray.astype(np.float32))**2, (31, 31))`. -/
def localSqMean (img : Img Pix3) : Img ℚ :=
  conv2d 15 boxK (graySq img)

/-- `local_var = np.maximum(local_sq_mean - local_mean**2, 0)` (before its
guarded normalization). -/
def localVarRaw (img : Img Pix3) : Img ℚ :=
  ⟨img.h, img.w, fun y x =>
    max ((localSqMean img).pix y x - (localMean img).pix y x ^ 2) 0⟩

/-- The local-variance field after its guarded normalization. -/
def localVarNorm (img : Img Pix3) : Img ℚ :=
  normalizeField (localVarRaw img)

/-- The class-weighted fusion:
`0.4*magnitude + 0.6*local_var` when `prediction_class == 'cancer'`,
`0.6*magnitude + 0.4*local_var` otherwise. -/
def fusedField (o : NumEnv) (img : Img Pix3) (prediction_class : String) : Img ℚ :=
  ⟨img.h, img.w, fun y x =>
    if prediction_class = "cancer" then
      2 / 5 * (magnitudeNorm o img).pix y x + 3 / 5 * (localVarNorm img).pix y x
    else
      3 / 5 * (magnitudeNorm o img).pix y x + 2 / 5 * (localVarNorm img).pix y x⟩

/-- `heatmap = cv2.GaussianBlur(heatmap.astype(np.float32), (31, 31), 0)`. -/
def smoothedFused (o : NumEnv) (img : Img Pix3) (prediction_class : String) : Img ℚ :=
  conv2d 15 o.g31 (fusedField o img prediction_class)

/-- The final heatmap after the last guarded normalization. -/
def heatmapFinal (o : NumEnv) (img : Img Pix3) (prediction_class : String) : Img ℚ :=
  normalizeField (smoothedFused o img prediction_class)

/-- `(cm.jet(v)[:3] * 255).astype(np.uint8)` on one saliency value: the jet
RGB triple scaled by 255 and truncated (a floor on the non-negative values the
colormap produces). -/
def colorizePix (o : NumEnv) (v : ℚ) : Pix3 :=
  (⌊255 * (o.jet v).1⌋, ⌊255 * (o.jet v).2.1⌋, ⌊255 * (o.jet v).2.2⌋)

/-- `heatmap_colored`, an RGB-ordered integer image. -/
def coloredField (o : NumEnv) (img : Img Pix3) (prediction_class : String) : Img Pix3 :=
  ⟨img.h, img.w, fun y x =>
    colorizePix o ((heatmapFinal o img prediction_class).pix y x)⟩

/-- OpenCV `cvRound`: round half to even. -/
def cvRound (q : ℚ) : ℤ :=
  if q - (⌊q⌋ : ℚ) < 1 / 2 then ⌊q⌋
  else if (1 : ℚ) / 2 < q - (⌊q⌋ : ℚ) then ⌊q⌋ + 1
  else if ⌊q⌋ % 2 = 0 then ⌊q⌋ else ⌊q⌋ + 1

/-- `saturate_cast<uchar>` after rounding: clamp to `[0, 255]`. -/
def saturate (z : ℤ) : ℤ := max 0 (min 255 z)

/-- One channel of `cv2.addWeighted(a, wa, b, wb, 0)` on 8-bit data:
`saturate_cast<uchar>(cvRound(wa*a + wb*b))`. -/
def blendChan (wa : ℚ) (a : ℤ) (wb : ℚ) (b : ℤ) : ℤ :=
  saturate (cvRound (wa * (a : ℚ) + wb * (b : ℚ)))

/-- `cv2.addWeighted(a, wa, b, wb, 0)` on 3-channel 8-bit images. -/
def addWeighted (a : Img Pix3) (wa : ℚ) (b : Img Pix3) (wb : ℚ) : Img Pix3 :=
  ⟨a.h, a.w, fun y x =>
    (blendChan wa (a.pix y x).1 wb (b.pix y x).1,
     blendChan wa (a.pix y x).2.1 wb (b.pix y x).2.1,
     blendChan wa (a.pix y x).2.2 wb (b.pix y x).2.2)⟩

/-- The pure core of `generate_simple_heatmap`: from the decoded BGR image to
the BGR image handed to `cv2.imwrite`.
`overlay = cv2.addWeighted(img_rgb, 1 - alpha, heatmap_colored, alpha, 0)`
followed by `cv2.cvtColor(overlay, cv2.COLOR_RGB2BGR)`. -/
def generate_simple_heatmap (o : NumEnv) (img : Img Pix3)
    (prediction_class : String) (alpha : ℚ) : Img Pix3 :=
  swapRB (addWeighted (swapRB img) (1 - alpha)
    (coloredField o img prediction_class) alpha)

/-- The file-system boundary: what `cv2.imread(image_path)` decodes (`none`
models a read/decode failure, which `imread` signals by returning `None`),
and whether `cv2.imwrite` succeeds (it reports failure through its boolean
return value). -/
structure FsEnv where
  decoded : Option (Img Pix3)
  writeOk : Bool

/-- Outcome of a successful run: the files written (path and pixel content)
and the returned string. -/
structure RunResult where
  written : List (String × Img Pix3)
  ret : String

/-- `generate_simple_heatmap` with its effects: raises `ValueError` when the
image cannot be loaded, otherwise computes the overlay, calls `cv2.imwrite`
(whose boolean result the source discards), and returns `output_path`. -/
def generate_simple_heatmap_run (o : NumEnv) (env : FsEnv)
    (image_path output_path prediction_class : String) (alpha : ℚ) :
    Except String RunResult :=
  match env.decoded with
  | none => Except.error ("Could not load image: " ++ image_path)
  | some img =>
      Except.ok
        ⟨if env.writeOk then
            [(output_path, generate_simple_heatmap o img prediction_class alpha)]
          else [],
         output_path⟩

/-- Auxiliary scan for `np.argmax`: first index of the maximum. -/
def npArgmaxAux : ℚ → ℕ → ℕ → List ℚ → ℕ
  | _, bi, _, [] => bi
  | b, bi, i, v :: l =>
      if b < v then npArgmaxAux v i (i + 1) l else npArgmaxAux b bi (i + 1) l

/-- `np.argmax` on a probability vector (first index of the maximum). -/
def npArgmax : List ℚ → ℕ
  | [] => 0
  | a :: l => npArgmaxAux a 0 1 l

/-- `generate_gradcam_heatmap`: the YOLO model's probability output on the
image is the `probs` parameter; the source picks
`class_names[np.argmax(probs)]` with `class_names = ['cancer', 'normal']` and
calls `generate_simple_heatmap` with the default `alpha` of 0.5.  The
`target_class` parameter appears in the signature but is never read, exactly
as in the source. -/
def generate_gradcam_heatmap (o : NumEnv) (env : FsEnv) (probs : List ℚ)
    (model_path image_path output_path : String) (target_class : Option ℕ) :
    Except String RunResult :=
  generate_simple_heatmap_run o env image_path output_path
    (["cancer", "normal"].getD (npArgmax probs) "") (1 / 2)

/-! ## Pixel-level unfolding lemmas -/

lemma conv2d_pix (r : ℕ) (k : ℤ → ℤ → ℚ) (img : Img ℚ) (y x : ℕ) :
    (conv2d r k img).pix y x =
      ∑ a ∈ Finset.range (2 * r + 1), ∑ b ∈ Finset.range (2 * r + 1),
        k ((a : ℤ) - (r : ℤ)) ((b : ℤ) - (r : ℤ)) *
          img.pix (reflect101 img.h ((y : ℤ) + ((a : ℤ) - (r : ℤ))))
                  (reflect101 img.w ((x : ℤ) + ((b : ℤ) - (r : ℤ)))) := rfl

lemma swapRB_pix (img : Img Pix3) (y x : ℕ) :
    (swapRB img).pix y x =
      ((img.pix y x).2.2, (img.pix y x).2.1, (img.pix y x).1) := rfl

lemma addWeighted_pix (a : Img Pix3) (wa : ℚ) (b : Img Pix3) (wb : ℚ) (y x : ℕ) :
    (addWeighted a wa b wb).pix y x =
      (blendChan wa (a.pix y x).1 wb (b.pix y x).1,
       blendChan wa (a.pix y x).2.1 wb (b.pix y x).2.1,
       blendChan wa (a.pix y x).2.2 wb (b.pix y x).2.2) := rfl

lemma coloredField_pix (o : NumEnv) (img : Img Pix3) (cls : String) (y x : ℕ) :
    (coloredField o img cls).pix y x =
      colorizePix o ((heatmapFinal o img cls).pix y x) := rfl

lemma fusedField_pix (o : NumEnv) (img : Img Pix3) (cls : String) (y x : ℕ) :
    (fusedField o img cls).pix y x =
      if cls = "cancer" then
        2 / 5 * (magnitudeNorm o img).pix y x + 3 / 5 * (localVarNorm img).pix y x
      else
        3 / 5 * (magnitudeNorm o img).pix y x + 2 / 5 * (localVarNorm img).pix y x := rfl

lemma magnitudeRaw_pix (o : NumEnv) (img : Img Pix3) (y x : ℕ) :
    (magnitudeRaw o img).pix y x =
      o.sqrtQ ((sobelxImg o img).pix y x ^ 2 + (sobelyImg o img).pix y x ^ 2) := rfl

lemma localVarRaw_pix (img : Img Pix3) (y x : ℕ) :
    (localVarRaw img).pix y x =
      max ((localSqMean img).pix y x - (localMean img).pix y x ^ 2) 0 := rfl

/-! ## Convolution of a constant image -/

lemma conv2d_const (r : ℕ) (k : ℤ → ℤ → ℚ) (img : Img ℚ) (c : ℚ)
    (h : ∀ y x, img.pix y x = c) (y x : ℕ) :
    (conv2d r k img).pix y x = ksum r k * c := by
  rw [conv2d_pix, ksum, Finset.sum_mul]
  refine Finset.sum_congr rfl fun a _ => ?_
  rw [Finset.sum_mul]
  refine Finset.sum_congr rfl fun b _ => ?_
  rw [h]

lemma ksum_sobelXK : ksum 1 sobelXK = 0 := by
  simp [ksum, sobelXK, Finset.sum_range_succ]

lemma ksum_sobelYK : ksum 1 sobelYK = 0 := by
  simp [ksum, sobelYK, sobelXK, Finset.sum_range_succ]
  norm_num

lemma ksum_boxK : ksum 15 boxK = 1 := by
  simp [ksum, boxK, Finset.sum_const, Finset.card_range, nsmul_eq_mul]
  norm_num

/-! ## Facts about `imgMax` (the NumPy array maximum) -/

lemma foldl_le_of_step (F : ℚ → ℕ → ℚ) (m : ℚ) :
    ∀ (l : List ℕ) (a : ℚ), a ≤ m → (∀ b n, b ≤ m → n ∈ l → F b n ≤ m) →
      l.foldl F a ≤ m := by
  intro l
  induction l with
  | nil => intro a ha _; exact ha
  | cons n l ih =>
      intro a ha hF
      exact ih (F a n) (hF a n ha (List.mem_cons_self n l))
        fun b k hb hk => hF b k hb (List.mem_cons_of_mem n hk)

lemma le_foldl_of_step (F : ℚ → ℕ → ℚ) (hmono : ∀ b n, b ≤ F b n) :
    ∀ (l : List ℕ) (a : ℚ), a ≤ l.foldl F a := by
  intro l
  induction l with
  | nil => intro a; exact le_refl a
  | cons n l ih => intro a; exact le_trans (hmono a n) (ih (F a n))

lemma foldl_ge_of_mem (F : ℚ → ℕ → ℚ) (hmono : ∀ b n, b ≤ F b n)
    (g : ℕ → ℚ) (hg : ∀ b n, g n ≤ F b n) :
    ∀ (l : List ℕ) (a : ℚ) (n : ℕ), n ∈ l → g n ≤ l.foldl F a := by
  intro l
  induction l with
  | nil => intro a n hn; exact absurd hn (List.not_mem_nil n)
  | cons k l ih =>
      intro a n hn
      rcases List.mem_cons.1 hn with h | h
      · subst h
        exact le_trans (hg a n) (le_foldl_of_step F hmono l (F a n))
      · exact ih (F a k) n h

lemma le_imgMax (f : Img ℚ) (y x : ℕ) (hy : y < f.h) (hx : x < f.w) :
    f.pix y x ≤ imgMax f := by
  unfold imgMax
  refine foldl_ge_of_mem _ ?_ (fun y' => f.pix y' x) ?_ _ _ y (List.mem_range.2 hy)
  · intro b n
    exact le_foldl_of_step _ (fun b' x' => le_max_left b' (f.pix n x')) _ b
  · intro b n
    exact foldl_ge_of_mem _ (fun b' x' => le_max_left b' (f.pix n x'))
      (fun x' => f.pix n x') (fun b' x' => le_max_right b' (f.pix n x'))
      _ b x (List.mem_range.2 hx)

lemma imgMax_le (f : Img ℚ) (m : ℚ) (h00 : f.pix 0 0 ≤ m)
    (h : ∀ y x, y < f.h → x < f.w → f.pix y x ≤ m) : imgMax f ≤ m := by
  unfold imgMax
  refine foldl_le_of_step _ m _ _ h00 ?_
  intro b y hb hy
  refine foldl_le_of_step _ m _ _ hb ?_
  intro b' x hb' hx
  exact max_le hb' (h y x (List.mem_range.1 hy) (List.mem_range.1 hx))

lemma pix00_le_imgMax (f : Img ℚ) : f.pix 0 0 ≤ imgMax f := by
  unfold imgMax
  exact le_foldl_of_step _
    (fun b n => le_foldl_of_step _ (fun b' x' => le_max_left b' (f.pix n x')) _ b) _ _

lemma imgMax_zero (f : Img ℚ) (h : ∀ y x, f.pix y x = 0) : imgMax f = 0 := by
  refine le_antisymm (imgMax_le f 0 (le_of_eq (h 0 0)) fun y x _ _ => le_of_eq (h y x)) ?_
  calc (0 : ℚ) = f.pix 0 0 := (h 0 0).symm
    _ ≤ imgMax f := pix00_le_imgMax f

/-! ## Facts about the guarded normalization -/

lemma normalizeField_pix (f : Img ℚ) (y x : ℕ) :
    (normalizeField f).pix y x =
      if 0 < imgMax f then f.pix y x / imgMax f else f.pix y x := by
  unfold normalizeField
  split <;> rfl

lemma normalizeField_eq_self (f : Img ℚ) (h : imgMax f = 0) :
    normalizeField f = f := by
  unfold normalizeField
  rw [if_neg]
  rw [h]
  exact lt_irrefl 0

lemma normalizeField_nonneg (f : Img ℚ) (hf : ∀ y x, 0 ≤ f.pix y x) (y x : ℕ) :
    0 ≤ (normalizeField f).pix y x := by
  rw [normalizeField_pix]
  split
  · exact div_nonneg (hf y x) (le_of_lt (by assumption))
  · exact hf y x

/-! ## Rounding, saturation, blending -/

lemma cvRound_intCast (z : ℤ) : cvRound (z : ℚ) = z := by
  unfold cvRound
  rw [Int.floor_intCast, sub_self, if_pos]
  norm_num

lemma saturate_eq_self (z : ℤ) (h0 : 0 ≤ z) (h1 : z ≤ 255) : saturate z = z := by
  unfold saturate
  rw [min_eq_right h1, max_eq_right h0]

lemma blendChan_full_left (a b : ℤ) (h0 : 0 ≤ a) (h1 : a ≤ 255) :
    blendChan 1 a 0 b = a := by
  unfold blendChan
  rw [one_mul, zero_mul, add_zero, cvRound_intCast, saturate_eq_self a h0 h1]

lemma blendChan_full_right (a b : ℤ) (h0 : 0 ≤ b) (h1 : b ≤ 255) :
    blendChan 0 a 1 b = b := by
  unfold blendChan
  rw [zero_mul, one_mul, zero_add, cvRound_intCast, saturate_eq_self b h0 h1]

/-! ## Non-negativity of the saliency fields -/

lemma magnitudeRaw_nonneg (o : NumEnv) (img : Img Pix3)
    (hs : ∀ q : ℚ, 0 ≤ q → 0 ≤ o.sqrtQ q) (y x : ℕ) :
    0 ≤ (magnitudeRaw o img).pix y x := by
  rw [magnitudeRaw_pix]
  exact hs _ (by positivity)

lemma localVarRaw_nonneg (img : Img Pix3) (y x : ℕ) :
    0 ≤ (localVarRaw img).pix y x := by
  rw [localVarRaw_pix]
  exact le_max_right _ 0

lemma fusedField_nonneg (o : NumEnv) (img : Img Pix3) (cls : String)
    (hs : ∀ q : ℚ, 0 ≤ q → 0 ≤ o.sqrtQ q) (y x : ℕ) :
    0 ≤ (fusedField o img cls).pix y x := by
  have hm : 0 ≤ (magnitudeNorm o img).pix y x :=
    normalizeField_nonneg _ (magnitudeRaw_nonneg o img hs) y x
  have hv : 0 ≤ (localVarNorm img).pix y x :=
    normalizeField_nonneg _ (localVarRaw_nonneg img) y x
  rw [fusedField_pix]
  split
  · exact add_nonneg (mul_nonneg (by norm_num) hm) (mul_nonneg (by norm_num) hv)
  · exact add_nonneg (mul_nonneg (by norm_num) hm) (mul_nonneg (by norm_num) hv)

lemma smoothedFused_nonneg (o : NumEnv) (img : Img Pix3) (cls : String)
    (hs : ∀ q : ℚ, 0 ≤ q → 0 ≤ o.sqrtQ q) (hg : ∀ a b : ℤ, 0 ≤ o.g31 a b)
    (y x : ℕ) :
    0 ≤ (smoothedFused o img cls).pix y x := by
  rw [smoothedFused, conv2d_pix]
  refine Finset.sum_nonneg fun a _ => Finset.sum_nonneg fun b _ =>
    mul_nonneg (hg _ _) (fusedField_nonneg o img cls hs _ _)

/-! ## Range of the colorized pixels -/

/-- A valid 8-bit pixel: every channel in `[0, 255]`. -/
def validPix (p : Pix3) : Prop :=
  0 ≤ p.1 ∧ p.1 ≤ 255 ∧ 0 ≤ p.2.1 ∧ p.2.1 ≤ 255 ∧ 0 ≤ p.2.2 ∧ p.2.2 ≤ 255

/-- The jet colormap returns float channels in `[0, 1]` (true of every
matplotlib colormap). -/
def jetInRange (o : NumEnv) : Prop :=
  ∀ v, 0 ≤ (o.jet v).1 ∧ (o.jet v).1 ≤ 1 ∧
    0 ≤ (o.jet v).2.1 ∧ (o.jet v).2.1 ≤ 1 ∧
    0 ≤ (o.jet v).2.2 ∧ (o.jet v).2.2 ≤ 1

lemma floor_chan_bounds (r : ℚ) (h0 : 0 ≤ r) (h1 : r ≤ 1) :
    0 ≤ ⌊255 * r⌋ ∧ ⌊255 * r⌋ ≤ 255 := by
  constructor
  · exact Int.floor_nonneg.2 (by positivity)
  · calc ⌊255 * r⌋ ≤ ⌊(255 : ℚ)⌋ := Int.floor_le_floor (by linarith)
      _ = 255 := by norm_num

lemma colorizePix_valid (o : NumEnv) (v : ℚ) (hj : jetInRange o) :
    validPix (colorizePix o v) := by
  obtain ⟨h1, h2, h3, h4, h5, h6⟩ := hj v
  obtain ⟨a1, a2⟩ := floor_chan_bounds _ h1 h2
  obtain ⟨b1, b2⟩ := floor_chan_bounds _ h3 h4
  obtain ⟨c1, c2⟩ := floor_chan_bounds _ h5 h6
  exact ⟨a1, a2, b1, b2, c1, c2⟩

/-! ## Concrete instances used by the witnesses -/

/-- A concrete numeric environment: identity square root, constant Gaussian
21-kernel summing to 1, zero 31-kernel, and a colormap that is constantly
black.  It satisfies every hypothesis the theorems place on `NumEnv`. -/
def opsW : NumEnv := ⟨fun q => q, fun _ _ => 1 / 441, fun _ _ => 0, fun _ => (0, 0, 0)⟩

lemma ksum_opsW_g21 : ksum 10 opsW.g21 = 1 := by
  simp [ksum, opsW, Finset.sum_const, Finset.card_range, nsmul_eq_mul]
  norm_num

/-- A concrete 1×1 uniform BGR image. -/
def imgW : Img Pix3 := ⟨1, 1, fun _ _ => (5, 6, 7)⟩

/-- A file-system state where decoding succeeds and the write succeeds. -/
def envOk : FsEnv := ⟨some imgW, true⟩

/-- A file-system state where decoding succeeds but the write fails
(`cv2.imwrite` returns `False`). -/
def envWriteFail : FsEnv := ⟨some imgW, false⟩

/-- A file-system state where the source path cannot be decoded. -/
def envNoImage : FsEnv := ⟨none, true⟩

/-! ## Claims -/

/-- Claim C1: in `generate_simple_heatmap` the gradient-magnitude field
(`magnitudeNorm`) and the local-variance field (`localVarNorm`) are computed
identically regardless of `prediction_class` — both are functions of the
image alone, and the very same two fields appear in the fused saliency value
for every class — and the fused field is exactly
`0.4*magnitude + 0.6*variance` when the class is the cancer label and
`0.6*magnitude + 0.4*variance` for every other label, so changing the label
changes only the weights. -/
theorem claim_C1_class_weights (o : NumEnv) (img : Img Pix3)
    (prediction_class : String) (y x : ℕ) :
    (fusedField o img prediction_class).pix y x =
      (if prediction_class = "cancer" then (2 : ℚ) / 5 else 3 / 5) *
          (magnitudeNorm o img).pix y x +
        (if prediction_class = "cancer" then (3 : ℚ) / 5 else 2 / 5) *
          (localVarNorm img).pix y x := by
  by_cases h : prediction_class = "cancer" <;> simp [fusedField_pix, h]

/-- Claim C2: for every decoded input image and every `prediction_class` and
`alpha`, the overlay image produced and persisted by `generate_simple_heatmap`
has exactly the pixel width and height of the input image. -/
theorem claim_C2_same_dimensions (o : NumEnv) (img : Img Pix3)
    (prediction_class : String) (alpha : ℚ) :
    (generate_simple_heatmap o img prediction_class alpha).h = img.h ∧
      (generate_simple_heatmap o img prediction_class alpha).w = img.w :=
  ⟨rfl, rfl⟩

/-- Claim C6: `generate_simple_heatmap` is deterministic — two invocations
with the same decoded input image, the same file-system state, the same
paths, the same `prediction_class` and the same `alpha` produce identical
results (in particular, identical written output images).  The embedding of
the source is a pure function of these inputs: the source consults no
randomness and no mutable global state. -/
theorem claim_C6_deterministic (o : NumEnv) (env1 env2 : FsEnv)
    (ip1 ip2 op1 op2 cls1 cls2 : String) (a1 a2 : ℚ)
    (henv : env1 = env2) (hip : ip1 = ip2) (hop : op1 = op2)
    (hcls : cls1 = cls2) (ha : a1 = a2) :
    generate_simple_heatmap_run o env1 ip1 op1 cls1 a1 =
      generate_simple_heatmap_run o env2 ip2 op2 cls2 a2 := by
  subst henv hip hop hcls ha
  rfl

/-- Witness for claim C6 at a concrete environment, image, class and alpha. -/
theorem claim_C6_deterministic_witness :
    generate_simple_heatmap_run opsW envOk "in.png" "out.png" "cancer" (1 / 2) =
      generate_simple_heatmap_run opsW envOk "in.png" "out.png" "cancer" (1 / 2) :=
  claim_C6_deterministic opsW envOk envOk "in.png" "in.png" "out.png" "out.png"
    "cancer" "cancer" (1 / 2) (1 / 2) rfl rfl rfl rfl rfl

/-- Claim C7: `generate_simple_heatmap` raises an error exactly when the
source path cannot be read and decoded as an image (`cv2.imread` returning
`None`); for every input that decodes it completes without raising.  The
write step is modelled after the `cv2.imwrite` API, which reports failure
through its boolean return value rather than by raising. -/
theorem claim_C7_error_iff_decode_fails (o : NumEnv) (env : FsEnv)
    (image_path output_path prediction_class : String) (alpha : ℚ) :
    (∃ e, generate_simple_heatmap_run o env image_path output_path
        prediction_class alpha = Except.error e) ↔ env.decoded = none := by
  cases h : env.decoded with
  | none =>
      refine ⟨fun _ => rfl, fun _ => ⟨"Could not load image: " ++ image_path, ?_⟩⟩
      simp [generate_simple_heatmap_run, h]
  | some img =>
      refine ⟨fun ⟨e, he⟩ => ?_, fun hc => absurd hc (by simp)⟩
      rw [generate_simple_heatmap_run, h] at he
      exact absurd he (by simp)

/-- Claim C10: the output of `generate_gradcam_heatmap` is independent of its
`target_class` argument: any two calls that differ only in `target_class`
produce identical results, because the function always uses the class derived
from the model's own probabilities (`np.argmax`) and never reads
`target_class`. -/
theorem claim_C10_target_class_ignored (o : NumEnv) (env : FsEnv)
    (probs : List ℚ) (model_path image_path output_path : String)
    (tc1 tc2 : Option ℕ) :
    generate_gradcam_heatmap o env probs model_path image_path output_path tc1 =
        generate_gradcam_heatmap o env probs model_path image_path output_path tc2 ∧
      generate_gradcam_heatmap o env probs model_path image_path output_path tc1 =
        generate_simple_heatmap_run o env image_path output_path
          (["cancer", "normal"].getD (npArgmax probs) "") (1 / 2) :=
  ⟨rfl, rfl⟩

/-- Claim C8 counterexample: the source discards the boolean result of
`cv2.imwrite`, so a failed write is not surfaced.  Concretely: with a
decodable 1×1 image and a write that fails (`cv2.imwrite` returns `False`,
e.g. an unwritable output directory), the call still returns success with the
output path, although nothing was written. -/
theorem claim_C8_write_failure_counterexample :
    envWriteFail.writeOk = false ∧
      generate_simple_heatmap_run opsW envWriteFail "in.png" "out.png" "cancer"
          (1 / 2) =
        Except.ok ⟨[], "out.png"⟩ :=
  ⟨rfl, rfl⟩

/-- Claim C8 amended: if writing the overlay fails (`cv2.imwrite` returns
`False`), `generate_simple_heatmap` does NOT surface the failure — it still
returns the output path as a success.  No file has been written in that case,
so the failure leaves no partial output; only a decode failure is raised. -/
theorem claim_C8_amended_write_failure_swallowed (o : NumEnv) (env : FsEnv)
    (image_path output_path prediction_class : String) (alpha : ℚ)
    (img : Img Pix3) (hd : env.decoded = some img) (hw : env.writeOk = false) :
    generate_simple_heatmap_run o env image_path output_path prediction_class
        alpha =
      Except.ok ⟨[], output_path⟩ := by
  simp [generate_simple_heatmap_run, hd, hw]

/-- Witness for the amended claim C8 at a concrete failing environment. -/
theorem claim_C8_amended_witness :
    generate_simple_heatmap_run opsW envWriteFail "a.png" "b.png" "normal"
        (1 / 4) =
      Except.ok ⟨[], "b.png"⟩ :=
  claim_C8_amended_write_failure_swallowed opsW envWriteFail "a.png" "b.png"
    "normal" (1 / 4) imgW rfl rfl

/-- Claim C9: a successful invocation of `generate_simple_heatmap` writes
exactly one file, at the given output path, whose content is the computed
overlay, and returns the output path.  The embedding is a pure function of
its arguments: no global variable or input argument is modified, and the
`written` list records every file the run touches. -/
theorem claim_C9_writes_exactly_one_file (o : NumEnv) (env : FsEnv)
    (image_path output_path prediction_class : String) (alpha : ℚ)
    (img : Img Pix3) (hd : env.decoded = some img) (hw : env.writeOk = true) :
    generate_simple_heatmap_run o env image_path output_path prediction_class
        alpha =
      Except.ok
        ⟨[(output_path, generate_simple_heatmap o img prediction_class alpha)],
         output_path⟩ := by
  simp [generate_simple_heatmap_run, hd, hw]

/-- Witness for claim C9 at a concrete succeeding environment. -/
theorem claim_C9_witness :
    generate_simple_heatmap_run opsW envOk "in.png" "out.png" "cancer" (1 / 2) =
      Except.ok
        ⟨[("out.png", generate_simple_heatmap opsW imgW "cancer" (1 / 2))],
         "out.png"⟩ :=
  claim_C9_writes_exactly_one_file opsW envOk "in.png" "out.png" "cancer"
    (1 / 2) imgW rfl rfl

/-- Claim C4: every normalization step of `generate_simple_heatmap` — of the
magnitude field, the variance field and the smoothed fused field — divides by
the field's maximum only when that maximum is strictly positive (the
`if-then-else` in each first conjunct), and otherwise leaves the field
untouched.  The bound conjuncts `0 ≤ pix` and `pix ≤ imgMax` show that each
raw field is non-negative with every in-range pixel below the maximum, so
when the maximum is zero the untouched field is all-zero; no
division-by-zero is reachable for any input image.  Hypotheses: `np.sqrt` is
non-negative on non-negative arguments and the Gaussian 31-kernel entries are
non-negative, both true of the functions the source calls. -/
theorem claim_C4_normalization_zero_guard (o : NumEnv) (img : Img Pix3)
    (prediction_class : String) (y x : ℕ) (hy : y < img.h) (hx : x < img.w)
    (hs : ∀ q : ℚ, 0 ≤ q → 0 ≤ o.sqrtQ q) (hg : ∀ a b : ℤ, 0 ≤ o.g31 a b) :
    (magnitudeNorm o img = normalizeField (magnitudeRaw o img) ∧
      (magnitudeNorm o img).pix y x =
        (if 0 < imgMax (magnitudeRaw o img) then
          (magnitudeRaw o img).pix y x / imgMax (magnitudeRaw o img)
        else (magnitudeRaw o img).pix y x) ∧
      0 ≤ (magnitudeRaw o img).pix y x ∧
      (magnitudeRaw o img).pix y x ≤ imgMax (magnitudeRaw o img)) ∧
    (localVarNorm img = normalizeField (localVarRaw img) ∧
      (localVarNorm img).pix y x =
        (if 0 < imgMax (localVarRaw img) then
          (localVarRaw img).pix y x / imgMax (localVarRaw img)
        else (localVarRaw img).pix y x) ∧
      0 ≤ (localVarRaw img).pix y x ∧
      (localVarRaw img).pix y x ≤ imgMax (localVarRaw img)) ∧
    (heatmapFinal o img prediction_class =
        normalizeField (smoothedFused o img prediction_class) ∧
      (heatmapFinal o img prediction_class).pix y x =
        (if 0 < imgMax (smoothedFused o img prediction_class) then
          (smoothedFused o img prediction_class).pix y x /
            imgMax (smoothedFused o img prediction_class)
        else (smoothedFused o img prediction_class).pix y x) ∧
      0 ≤ (smoothedFused o img prediction_class).pix y x ∧
      (smoothedFused o img prediction_class).pix y x ≤
        imgMax (smoothedFused o img prediction_class)) := by
  refine ⟨⟨rfl, normalizeField_pix _ y x, magnitudeRaw_nonneg o img hs y x,
      le_imgMax _ y x hy hx⟩,
    ⟨rfl, normalizeField_pix _ y x, localVarRaw_nonneg img y x,
      le_imgMax _ y x hy hx⟩,
    ⟨rfl, normalizeField_pix _ y x,
      smoothedFused_nonneg o img prediction_class hs hg y x,
      le_imgMax _ y x hy hx⟩⟩

/-- Witness for claim C4 at a concrete environment and 1×1 image. -/
theorem claim_C4_witness :
    (magnitudeNorm opsW imgW = normalizeField (magnitudeRaw opsW imgW) ∧
      (magnitudeNorm opsW imgW).pix 0 0 =
        (if 0 < imgMax (magnitudeRaw opsW imgW) then
          (magnitudeRaw opsW imgW).pix 0 0 / imgMax (magnitudeRaw opsW imgW)
        else (magnitudeRaw opsW imgW).pix 0 0) ∧
      0 ≤ (magnitudeRaw opsW imgW).pix 0 0 ∧
      (magnitudeRaw opsW imgW).pix 0 0 ≤ imgMax (magnitudeRaw opsW imgW)) ∧
    (localVarNorm imgW = normalizeField (localVarRaw imgW) ∧
      (localVarNorm imgW).pix 0 0 =
        (if 0 < imgMax (localVarRaw imgW) then
          (localVarRaw imgW).pix 0 0 / imgMax (localVarRaw imgW)
        else (localVarRaw imgW).pix 0 0) ∧
      0 ≤ (localVarRaw imgW).pix 0 0 ∧
      (localVarRaw imgW).pix 0 0 ≤ imgMax (localVarRaw imgW)) ∧
    (heatmapFinal opsW imgW "cancer" =
        normalizeField (smoothedFused opsW imgW "cancer") ∧
      (heatmapFinal opsW imgW "cancer").pix 0 0 =
        (if 0 < imgMax (smoothedFused opsW imgW "cancer") then
          (smoothedFused opsW imgW "cancer").pix 0 0 /
            imgMax (smoothedFused opsW imgW "cancer")
        else (smoothedFused opsW imgW "cancer").pix 0 0) ∧
      0 ≤ (smoothedFused opsW imgW "cancer").pix 0 0 ∧
      (smoothedFused opsW imgW "cancer").pix 0 0 ≤
        imgMax (smoothedFused opsW imgW "cancer")) :=
  claim_C4_normalization_zero_guard opsW imgW "cancer" 0 0 (by decide)
    (by decide) (fun q hq => hq) (fun a b => le_refl 0)

/-- Claim C5: for every decoded input image (pixels are valid 8-bit values)
and every class: with `alpha = 0` the written output pixel equals the
original image pixel unchanged, and with `alpha = 1` it equals the pure
colorized saliency field (as persisted, i.e. after the RGB→BGR conversion)
with no contribution from the original image.  The jet colormap returns
channels in `[0, 1]`, so the colorized values survive the saturating cast. -/
theorem claim_C5_alpha_extremes (o : NumEnv) (img : Img Pix3)
    (prediction_class : String) (y x : ℕ)
    (hv : validPix (img.pix y x)) (hj : jetInRange o) :
    (generate_simple_heatmap o img prediction_class 0).pix y x = img.pix y x ∧
      (generate_simple_heatmap o img prediction_class 1).pix y x =
        (swapRB (coloredField o img prediction_class)).pix y x := by
  obtain ⟨hb0, hb1, hg0, hg1, hr0, hr1⟩ := hv
  obtain ⟨q1, q2, q3, q4, q5, q6⟩ :=
    colorizePix_valid o ((heatmapFinal o img prediction_class).pix y x) hj
  constructor
  · simp only [generate_simple_heatmap, swapRB_pix, addWeighted_pix,
      coloredField_pix, sub_zero]
    rw [blendChan_full_left _ _ hb0 hb1, blendChan_full_left _ _ hg0 hg1,
      blendChan_full_left _ _ hr0 hr1]
  · simp only [generate_simple_heatmap, swapRB_pix, addWeighted_pix,
      coloredField_pix, sub_self]
    rw [blendChan_full_right _ _ q5 q6, blendChan_full_right _ _ q3 q4,
      blendChan_full_right _ _ q1 q2]

/-- Witness for claim C5 at a concrete environment and 1×1 image. -/
theorem claim_C5_witness :
    (generate_simple_heatmap opsW imgW "cancer" 0).pix 0 0 = imgW.pix 0 0 ∧
      (generate_simple_heatmap opsW imgW "cancer" 1).pix 0 0 =
        (swapRB (coloredField opsW imgW "cancer")).pix 0 0 :=
  claim_C5_alpha_extremes opsW imgW "cancer" 0 0 (by simp [validPix, imgW])
    (fun v => ⟨le_refl 0, by norm_num [opsW], le_refl 0, by norm_num [opsW],
      le_refl 0, by norm_num [opsW]⟩)

/-- Claim C3: for a uniform (constant-color) input image, the raw gradient
magnitude and raw local variance computed by `generate_simple_heatmap` are
zero at every pixel, every field maximum is zero — so each guarded
normalization skips its division — and the written output equals the original
image alpha-blended per channel with the constant color that the jet colormap
assigns to saliency value zero (stated in the persisted BGR channel order).
Hypotheses: the image is constant, the Gaussian 21-kernel sums to 1 (as
`cv2.getGaussianKernel` guarantees), and `np.sqrt 0 = 0`. -/
theorem claim_C3_uniform_image (o : NumEnv) (img : Img Pix3) (c : Pix3)
    (prediction_class : String) (alpha : ℚ) (y x : ℕ)
    (hu : ∀ y x, img.pix y x = c)
    (hg21 : ksum 10 o.g21 = 1)
    (hs0 : o.sqrtQ 0 = 0) :
    (magnitudeRaw o img).pix y x = 0 ∧
    (localVarRaw img).pix y x = 0 ∧
    imgMax (magnitudeRaw o img) = 0 ∧
    imgMax (localVarRaw img) = 0 ∧
    imgMax (smoothedFused o img prediction_class) = 0 ∧
    (generate_simple_heatmap o img prediction_class alpha).pix y x =
      (blendChan (1 - alpha) c.1 alpha (colorizePix o 0).2.2,
       blendChan (1 - alpha) c.2.1 alpha (colorizePix o 0).2.1,
       blendChan (1 - alpha) c.2.2 alpha (colorizePix o 0).1) := by
  have hgray : ∀ y x, (grayImg img).pix y x = grayPix c := fun y x => by
    show grayPix (img.pix y x) = grayPix c
    rw [hu]
  have hblur : ∀ y x, (blurredImg o img).pix y x = grayPix c := fun y x => by
    show (conv2d 10 o.g21 (grayImg img)).pix y x = grayPix c
    rw [conv2d_const 10 o.g21 (grayImg img) (grayPix c) hgray y x, hg21, one_mul]
  have hsx : ∀ y x, (sobelxImg o img).pix y x = 0 := fun y x => by
    show (conv2d 1 sobelXK (blurredImg o img)).pix y x = 0
    rw [conv2d_const 1 sobelXK (blurredImg o img) (grayPix c) hblur y x,
      ksum_sobelXK, zero_mul]
  have hsy : ∀ y x, (sobelyImg o img).pix y x = 0 := fun y x => by
    show (conv2d 1 sobelYK (blurredImg o img)).pix y x = 0
    rw [conv2d_const 1 sobelYK (blurredImg o img) (grayPix c) hblur y x,
      ksum_sobelYK, zero_mul]
  have hmag : ∀ y x, (magnitudeRaw o img).pix y x = 0 := fun y x => by
    rw [magnitudeRaw_pix, hsx, hsy]
    have h00 : (0 : ℚ) ^ 2 + (0 : ℚ) ^ 2 = 0 := by norm_num
    rw [h00, hs0]
  have hmean : ∀ y x, (localMean img).pix y x = grayPix c := fun y x => by
    show (conv2d 15 boxK (grayImg img)).pix y x = grayPix c
    rw [conv2d_const 15 boxK (grayImg img) (grayPix c) hgray y x, ksum_boxK,
      one_mul]
  have hgsq : ∀ y x, (graySq img).pix y x = grayPix c ^ 2 := fun y x => by
    show (grayImg img).pix y x ^ 2 = grayPix c ^ 2
    rw [hgray]
  have hsqmean : ∀ y x, (localSqMean img).pix y x = grayPix c ^ 2 := fun y x => by
    show (conv2d 15 boxK (graySq img)).pix y x = grayPix c ^ 2
    rw [conv2d_const 15 boxK (graySq img) (grayPix c ^ 2) hgsq y x, ksum_boxK,
      one_mul]
  have hvar : ∀ y x, (localVarRaw img).pix y x = 0 := fun y x => by
    rw [localVarRaw_pix, hsqmean, hmean]
    simp
  have hMmag : imgMax (magnitudeRaw o img) = 0 := imgMax_zero _ hmag
  have hMvar : imgMax (localVarRaw img) = 0 := imgMax_zero _ hvar
  have hmagN : ∀ y x, (magnitudeNorm o img).pix y x = 0 := fun y x => by
    show (normalizeField (magnitudeRaw o img)).pix y x = 0
    rw [normalizeField_eq_self _ hMmag]
    exact hmag y x
  have hvarN : ∀ y x, (localVarNorm img).pix y x = 0 := fun y x => by
    show (normalizeField (localVarRaw img)).pix y x = 0
    rw [normalizeField_eq_self _ hMvar]
    exact hvar y x
  have hfused : ∀ y x, (fusedField o img prediction_class).pix y x = 0 :=
    fun y x => by
      rw [fusedField_pix, hmagN, hvarN]
      split <;> ring
  have hsm : ∀ y x, (smoothedFused o img prediction_class).pix y x = 0 :=
    fun y x => by
      show (conv2d 15 o.g31 (fusedField o img prediction_class)).pix y x = 0
      rw [conv2d_const 15 o.g31 _ 0 hfused y x, mul_zero]
  have hMsm : imgMax (smoothedFused o img prediction_class) = 0 :=
    imgMax_zero _ hsm
  have hfin : ∀ y x, (heatmapFinal o img prediction_class).pix y x = 0 :=
    fun y x => by
      show (normalizeField (smoothedFused o img prediction_class)).pix y x = 0
      rw [normalizeField_eq_self _ hMsm]
      exact hsm y x
  refine ⟨hmag y x, hvar y x, hMmag, hMvar, hMsm, ?_⟩
  simp only [generate_simple_heatmap, swapRB_pix, addWeighted_pix,
    coloredField_pix, hfin, hu]

/-- Witness for claim C3 at a concrete environment and a concrete constant
image. -/
theorem claim_C3_witness :
    (magnitudeRaw opsW imgW).pix 0 0 = 0 ∧
    (localVarRaw imgW).pix 0 0 = 0 ∧
    imgMax (magnitudeRaw opsW imgW) = 0 ∧
    imgMax (localVarRaw imgW) = 0 ∧
    imgMax (smoothedFused opsW imgW "normal") = 0 ∧
    (generate_simple_heatmap opsW imgW "normal" (1 / 2)).pix 0 0 =
      (blendChan (1 - 1 / 2) (5 : ℤ) (1 / 2) (colorizePix opsW 0).2.2,
       blendChan (1 - 1 / 2) (6 : ℤ) (1 / 2) (colorizePix opsW 0).2.1,
       blendChan (1 - 1 / 2) (7 : ℤ) (1 / 2) (colorizePix opsW 0).1) :=
  claim_C3_uniform_image opsW imgW (5, 6, 7) "normal" (1 / 2) 0 0
    (fun _ _ => rfl) ksum_opsW_g21 rfl

end BoneCancer
